import Mathlib

/-!
# zigbee-watcher: the log-triggered restart supervisor of `main.go`

A shallow embedding of `main.go`.  The Docker daemon is a script of responses
(`Docker`), the process is a state `Sys` that counts the gateway calls made so
far and records every observable step in a trace of `Event`s.  Each Go function
becomes a state-passing Lean function with the same name.

Conventions of the embedding:

* a Go `string` is a Lean `String`; `strings.Contains` compares the two strings
  element by element, with no case folding;
* a Go `error` is the `String` of its message, `nil` is `none`;
* `log.Fatal`/`log.Fatalf` is the log line followed by `os.Exit(1)`;
* one streaming session delivers a finite list of lines, then `scanner.Scan()`
  returns false, with or without a read error;
* the `for` loop of the goroutine in `main` is unrolled a given number of rounds;
  the termination signal on `stopChan` is not part of the model.
-/

namespace ZigbeeWatcher

/-! ## Data model -/

/-- Go `time.Duration`: a signed number of nanoseconds. -/
abbrev Duration := Int

/-- Go `time.Second`. -/
def Second : Duration := 1000000000

/-- The console and log messages of `main.go`, one constructor per format string. -/
inductive Msg where
  | dotenvWarning
  | clientInitError (err : String)
  | containerNameNotSet
  | resolveError (err : String)
  | errorMsgNotSet
  | fetchLogsError (containerID err : String)
  | criteriaFound (criteria containerID : String)
  | readLogsError (containerID err : String)
  | stopError (containerID err : String)
  | startError (containerID err : String)
  | restarted (containerID : String)
  deriving DecidableEq, Repr

/-- One observable step of the process. -/
inductive Event where
  /-- Console output through `fmt.Println` or `fmt.Printf`. -/
  | print (m : Msg)
  /-- Output of `log.Printf`, and the output half of `log.Fatal` and `log.Fatalf`. -/
  | log (m : Msg)
  /-- Process end `os.Exit(code)`, the second half of `log.Fatal` and `log.Fatalf`. -/
  | osExit (code : Int)
  /-- Call `cli.ContainerInspect(ctx, name)` and the error it returned. -/
  | inspect (name : String) (err : Option String)
  /-- Call `cli.ContainerLogs(ctx, containerID, ...)` and the error it returned. -/
  | logs (containerID : String) (err : Option String)
  /-- Call `reader.Close()`, deferred in `monitorContainerLogs`. -/
  | closeLogs (containerID : String)
  /-- Call `strings.Contains(logLine, criteria)` on a line taken from the scanner. -/
  | contains (logLine criteria : String)
  /-- Call `cli.ContainerStop(ctx, containerID, ...)` and the error it returned. -/
  | stop (containerID : String) (err : Option String)
  /-- Call `time.Sleep(d)`. -/
  | sleep (d : Duration)
  /-- Call `cli.ContainerStart(ctx, containerID, ...)` and the error it returned. -/
  | start (containerID : String) (err : Option String)
  deriving DecidableEq, Repr

/-- What one `ContainerLogs` reader yields through `bufio.Scanner`: the lines of
the successive `scanner.Scan()` calls, and `scanner.Err()` once `Scan` is false. -/
structure LogStream where
  lines : List String
  err : Option String

/-- The Docker daemon seen through `*client.Client`: `logs k`, `stop k` and
`start k` answer the `k`-th call (from 0) of that operation. -/
structure Docker where
  inspect : String → Except String String
  logs : Nat → String → Except String LogStream
  stop : Nat → String → Option String
  start : Nat → String → Option String

/-- Process state: how many calls of each kind were made, and the trace so far. -/
structure Sys where
  logsCalls : Nat
  stopCalls : Nat
  startCalls : Nat
  trace : List Event
  deriving DecidableEq, Repr

/-- Append events to the trace. -/
def Sys.emit (s : Sys) (es : List Event) : Sys :=
  { s with trace := s.trace ++ es }

/-- Result of running a function: it returned a value, or the process exited. -/
inductive Run (α : Type) where
  | ret (a : α) (s : Sys)
  | exit (s : Sys)
  deriving DecidableEq, Repr

/-- The state a run ended in. -/
def Run.sys {α : Type} : Run α → Sys
  | Run.ret _ s => s
  | Run.exit s => s

/-- Whether the run ended by leaving the process. -/
def Run.exited {α : Type} : Run α → Bool
  | Run.ret _ _ => false
  | Run.exit _ => true

/-- The startup inputs of `main` other than the daemon: the result of
`godotenv.Load()`, the result of `client.NewClientWithOpts`, and `os.Getenv` as
it answers once the `.env` file has been loaded. -/
structure Startup where
  dotenvErr : Option String
  clientErr : Option String
  getenv : String → String

/-! ## `strings.Contains` -/

/-- Whether `p` is an initial segment of `s`. -/
def startsWith : List Char → List Char → Bool
  | _, [] => true
  | [], _ :: _ => false
  | c :: s, d :: p => decide (c = d) && startsWith s p

/-- Whether `substr` occurs at some position of `s`. -/
def containsChars (substr : List Char) : List Char → Bool
  | [] => startsWith [] substr
  | c :: s => startsWith (c :: s) substr || containsChars substr s

/-- Go `strings.Contains(s, substr)`. -/
def Contains (s substr : String) : Bool :=
  containsChars substr.toList s.toList

/-! ## The functions of `main.go` -/

/-- Go `restartContainer`: stop, settle for ten seconds, start. -/
def restartContainer (cli : Docker) (containerID : String) (s : Sys) : Sys :=
  match cli.stop s.stopCalls containerID with
  | some err =>
    { s with
      stopCalls := s.stopCalls + 1
      trace := s.trace ++
        [Event.stop containerID (some err), Event.log (Msg.stopError containerID err)] }
  | none =>
    match cli.start s.startCalls containerID with
    | some err =>
      { s with
        stopCalls := s.stopCalls + 1
        startCalls := s.startCalls + 1
        trace := s.trace ++
          [Event.stop containerID none, Event.sleep (10 * Second),
           Event.start containerID (some err), Event.log (Msg.startError containerID err)] }
    | none =>
      { s with
        stopCalls := s.stopCalls + 1
        startCalls := s.startCalls + 1
        trace := s.trace ++
          [Event.stop containerID none, Event.sleep (10 * Second),
           Event.start containerID none, Event.print (Msg.restarted containerID)] }

/-- The `for scanner.Scan()` loop of `monitorContainerLogs` over the lines the
scanner delivers. -/
def scanLines (cli : Docker) (containerID criteria : String) : List String → Sys → Sys
  | [], s => s
  | logLine :: rest, s =>
    if Contains logLine criteria then
      scanLines cli containerID criteria rest
        (restartContainer cli containerID
          (s.emit [Event.contains logLine criteria,
                   Event.print (Msg.criteriaFound criteria containerID)]))
    else
      scanLines cli containerID criteria rest (s.emit [Event.contains logLine criteria])

/-- Go `monitorContainerLogs`: one streaming session. -/
def monitorContainerLogs (cli : Docker) (containerID criteria : String) (s : Sys) : Run Unit :=
  match cli.logs s.logsCalls containerID with
  | Except.error err =>
    Run.exit
      { s with
        logsCalls := s.logsCalls + 1
        trace := s.trace ++
          [Event.logs containerID (some err),
           Event.log (Msg.fetchLogsError containerID err), Event.osExit 1] }
  | Except.ok reader =>
    let s1 := scanLines cli containerID criteria reader.lines
      { s with
        logsCalls := s.logsCalls + 1
        trace := s.trace ++ [Event.logs containerID none] }
    match reader.err with
    | some err =>
      Run.ret () (s1.emit [Event.log (Msg.readLogsError containerID err),
                           Event.closeLogs containerID])
    | none => Run.ret () (s1.emit [Event.closeLogs containerID])

/-- Go `resolveContainerID`: the ID of the inspected container, or an error. -/
def resolveContainerID (cli : Docker) (containerName : String) (s : Sys) :
    Except String String × Sys :=
  match cli.inspect containerName with
  | Except.error err =>
    (Except.error ("container " ++ containerName ++ " not found or not running"),
     s.emit [Event.inspect containerName (some err)])
  | Except.ok containerID =>
    (Except.ok containerID, s.emit [Event.inspect containerName none])

/-- The state `main` starts in. -/
def Sys.init : Sys := ⟨0, 0, 0, []⟩

/-- Go `main` up to the point where it launches the goroutine: on success the pair
`(containerID, msgErrCriteria)` captured by the goroutine. -/
def mainStartup (env : Startup) (cli : Docker) : Run (String × String) :=
  let s1 : Sys :=
    match env.dotenvErr with
    | some _ => Sys.init.emit [Event.print Msg.dotenvWarning]
    | none => Sys.init
  match env.clientErr with
  | some err => Run.exit (s1.emit [Event.log (Msg.clientInitError err), Event.osExit 1])
  | none =>
    let containerName := env.getenv "CONTAINER_NAME"
    if containerName = "" then
      Run.exit (s1.emit [Event.log Msg.containerNameNotSet, Event.osExit 1])
    else
      match resolveContainerID cli containerName s1 with
      | (Except.error err, s2) =>
        Run.exit (s2.emit [Event.log (Msg.resolveError err), Event.osExit 1])
      | (Except.ok containerID, s2) =>
        let msgErrCriteria := env.getenv "ERROR_MSG"
        if msgErrCriteria = "" then
          Run.exit (s2.emit [Event.log Msg.errorMsgNotSet, Event.osExit 1])
        else
          Run.ret (containerID, msgErrCriteria) s2

/-- The goroutine of `main`, `for { monitorContainerLogs(...); time.Sleep(2s) }`,
unrolled `rounds` times: `Run.ret` means the loop is back at its head. -/
def supervisorLoop (cli : Docker) (containerID criteria : String) : Nat → Sys → Run Unit
  | 0, s => Run.ret () s
  | rounds + 1, s =>
    match monitorContainerLogs cli containerID criteria s with
    | Run.exit s1 => Run.exit s1
    | Run.ret _ s1 =>
      supervisorLoop cli containerID criteria rounds (s1.emit [Event.sleep (2 * Second)])

/-- Go `main`: the startup sequence, then `rounds` rounds of the goroutine. -/
def main (env : Startup) (cli : Docker) (rounds : Nat) : Run Unit :=
  match mainStartup env cli with
  | Run.exit s => Run.exit s
  | Run.ret (containerID, msgErrCriteria) s =>
    supervisorLoop cli containerID msgErrCriteria rounds s

/-! ## Observations on traces -/

/-- Whether an event is a call of the runtime gateway. -/
def Event.isGateway : Event → Bool
  | Event.inspect _ _ => true
  | Event.logs _ _ => true
  | Event.stop _ _ => true
  | Event.start _ _ => true
  | _ => false

/-- The gateway calls of a trace, in order. -/
def gatewayCalls (tr : List Event) : List Event :=
  tr.filter Event.isGateway

/-- Whether an event is a `ContainerStop` call. -/
def Event.isStop : Event → Bool
  | Event.stop _ _ => true
  | _ => false

/-- Whether an event is a `ContainerStart` call. -/
def Event.isStart : Event → Bool
  | Event.start _ _ => true
  | _ => false

/-- Whether an event is a `ContainerLogs` call. -/
def Event.isLogs : Event → Bool
  | Event.logs _ _ => true
  | _ => false

/-- The lines handed to `strings.Contains`, in order. -/
def testedLines : List Event → List String
  | [] => []
  | Event.contains logLine _ :: tr => logLine :: testedLines tr
  | _ :: tr => testedLines tr

/-- The lines on which a restart was made: each `ContainerStop` call is charged
to the line most recently handed to `strings.Contains` (`cur`). -/
def actuatedLines : Option String → List Event → List String
  | _, [] => []
  | _, Event.contains logLine _ :: tr => actuatedLines (some logLine) tr
  | cur, Event.stop _ _ :: tr => cur.toList ++ actuatedLines cur tr
  | cur, _ :: tr => actuatedLines cur tr

/-- Invoke `restartContainer` `n` times back to back. -/
def restartRepeatedly (cli : Docker) (containerID : String) : Nat → Sys → Sys
  | 0, s => s
  | n + 1, s => restartContainer cli containerID (restartRepeatedly cli containerID n s)

/-! ## Groups of events -/

/-- What `monitorContainerLogs` does once the scanner is exhausted: report a read
error if there is one, then run the deferred `reader.Close()`. -/
def sessionEnd (containerID : String) : Option String → List Event
  | some err => [Event.log (Msg.readLogsError containerID err), Event.closeLogs containerID]
  | none => [Event.closeLogs containerID]

/-- What `main` prints when `godotenv.Load()` fails. -/
def dotenvNotice : Option String → List Event
  | some _ => [Event.print Msg.dotenvWarning]
  | none => []

/-! ## States and runs used to state the claims -/

/-- Put earlier events in front of the trace of a state. -/
def Sys.prepend (t : List Event) (s : Sys) : Sys :=
  { s with trace := t ++ s.trace }

/-- Put earlier events in front of the trace of a run. -/
def Run.prepend {α : Type} (t : List Event) : Run α → Run α
  | Run.ret a s => Run.ret a (s.prepend t)
  | Run.exit s => Run.exit (s.prepend t)

/-- The state of a session right after its stream opened. -/
def Sys.opened (s : Sys) (containerID : String) : Sys :=
  ⟨s.logsCalls + 1, s.stopCalls, s.startCalls, s.trace ++ [Event.logs containerID none]⟩

/-- The state after a line was found to contain the criteria and the actuation
on it got past a successful stop, with the events `es` of that step. -/
def Sys.actuated (s : Sys) (es : List Event) : Sys :=
  ⟨s.logsCalls, s.stopCalls + 1, s.startCalls + 1, s.trace ++ es⟩

/-- The remainder of the supervisor loop from a state `x` inside a session: scan
the lines `post` still to come, end the session, sleep two seconds, and go on
for `rounds` more rounds. -/
def restOfLoop (cli : Docker) (containerID criteria : String) (post : List String)
    (readErr : Option String) (rounds : Nat) (x : Sys) : Run Unit :=
  supervisorLoop cli containerID criteria rounds
    (((scanLines cli containerID criteria post x).emit (sessionEnd containerID readErr)).emit
      [Event.sleep (2 * Second)])

/-! ## Scripted daemons and environments used by the examples -/

/-- A daemon that knows the container as `abc`, streams the lines `L` in every
session and answers every stop and start call with the given errors. -/
def scriptedDocker (L : List String) (stopErr startErr : Option String) : Docker where
  inspect := fun _ => Except.ok "abc"
  logs := fun _ _ => Except.ok ⟨L, none⟩
  stop := fun _ _ => stopErr
  start := fun _ _ => startErr

/-- A daemon on which every `ContainerLogs` call fails. -/
def unreachableDocker : Docker where
  inspect := fun _ => Except.ok "abc"
  logs := fun _ _ => Except.error "daemon unreachable"
  stop := fun _ _ => none
  start := fun _ _ => none

/-- A daemon that streams `L` in every session, accepts every stop and rejects
every start. -/
def startFailsDocker (L : List String) : Docker :=
  scriptedDocker L none (some "port is already allocated")

/-- An environment with a loaded `.env` file and a working client in which the
two variables have the given values; every other variable is unset. -/
def envOf (containerName errorMsg : String) : Startup where
  dotenvErr := none
  clientErr := none
  getenv := fun key =>
    if key = "CONTAINER_NAME" then containerName
    else if key = "ERROR_MSG" then errorMsg
    else ""

/-- A daemon that knows no container. -/
def emptyDocker : Docker where
  inspect := fun _ => Except.error "No such container"
  logs := fun _ _ => Except.error "No such container"
  stop := fun _ _ => some "No such container"
  start := fun _ _ => some "No such container"

/-! ## `strings.Contains` is substring containment -/

/-- The test `startsWith` decides whether `p` is an initial segment of `s`. -/
theorem startsWith_iff (s p : List Char) : startsWith s p = true ↔ p <+: s := by
  induction s generalizing p with
  | nil => cases p <;> simp [startsWith]
  | cons c s ih =>
    cases p with
    | nil => simp [startsWith]
    | cons d p =>
      simp only [startsWith, Bool.and_eq_true, decide_eq_true_eq, ih, List.cons_prefix_cons]
      constructor
      · rintro ⟨h, h2⟩; exact ⟨h.symm, h2⟩
      · rintro ⟨h, h2⟩; exact ⟨h.symm, h2⟩

/-- The test `containsChars` decides whether `substr` is a contiguous part of `s`. -/
theorem containsChars_iff (substr s : List Char) :
    containsChars substr s = true ↔ substr <:+: s := by
  induction s with
  | nil =>
    simp only [containsChars, startsWith_iff, List.prefix_nil, List.infix_nil]
  | cons c s ih =>
    simp only [containsChars, Bool.or_eq_true, startsWith_iff, ih, List.infix_cons_iff]

/-- The model of `strings.Contains` holds exactly when the characters of `substr` occur
contiguously in `s`. -/
theorem Contains_iff (s substr : String) :
    Contains s substr = true ↔ substr.toList <:+: s.toList := by
  unfold Contains
  exact containsChars_iff _ _

/-- Deciding substring containment is what `Contains` computes. -/
theorem decide_infix_eq_Contains (criteria : String) :
    (fun l : String => decide (criteria.toList <:+: l.toList)) =
      fun l => Contains l criteria := by
  funext l
  rw [Bool.eq_iff_iff, decide_eq_true_eq, Contains_iff]

/-! ## One actuation -/

/-- The three ways one `restartContainer` call can go. -/
theorem restartContainer_cases (cli : Docker) (containerID : String) (s : Sys) :
    ∃ (k : Nat) (chunk : List Event),
      restartContainer cli containerID s =
        ⟨s.logsCalls, s.stopCalls + 1, s.startCalls + k, s.trace ++ chunk⟩ ∧
      ((∃ err, cli.stop s.stopCalls containerID = some err ∧ k = 0 ∧
          chunk = [Event.stop containerID (some err),
                   Event.log (Msg.stopError containerID err)]) ∨
       (∃ err, cli.stop s.stopCalls containerID = none ∧
          cli.start s.startCalls containerID = some err ∧ k = 1 ∧
          chunk = [Event.stop containerID none, Event.sleep (10 * Second),
                   Event.start containerID (some err),
                   Event.log (Msg.startError containerID err)]) ∨
       (cli.stop s.stopCalls containerID = none ∧
          cli.start s.startCalls containerID = none ∧ k = 1 ∧
          chunk = [Event.stop containerID none, Event.sleep (10 * Second),
                   Event.start containerID none,
                   Event.print (Msg.restarted containerID)])) := by
  unfold restartContainer
  cases h : cli.stop s.stopCalls containerID with
  | some err => exact ⟨0, _, rfl, Or.inl ⟨err, rfl, rfl, rfl⟩⟩
  | none =>
    cases h2 : cli.start s.startCalls containerID with
    | some err => exact ⟨1, _, rfl, Or.inr (Or.inl ⟨err, rfl, rfl, rfl, rfl⟩)⟩
    | none => exact ⟨1, _, rfl, Or.inr (Or.inr ⟨rfl, rfl, rfl, rfl⟩)⟩

/-- In the events of one `restartContainer` call, a start comes third, right
after the successful stop and the settle delay, and only a message follows it. -/
theorem restartContainer_start_position (cli : Docker) (containerID : String) (s : Sys) :
    ∃ chunk : List Event,
      (restartContainer cli containerID s).trace = s.trace ++ chunk ∧
      ∀ pre post x r, chunk = pre ++ Event.start x r :: post →
        pre = [Event.stop containerID none, Event.sleep (10 * Second)] ∧
        x = containerID ∧ ∀ e ∈ post, e.isStop = false := by
  obtain ⟨k, chunk, hr, hchunk⟩ := restartContainer_cases cli containerID s
  refine ⟨chunk, by rw [hr], ?_⟩
  intro pre post x r h
  rcases hchunk with ⟨err, _, _, rfl⟩ | ⟨err, _, _, _, rfl⟩ | ⟨_, _, _, rfl⟩ <;>
    rcases pre with _ | ⟨a, _ | ⟨b, _ | ⟨c, _ | ⟨d, pre⟩⟩⟩⟩ <;>
    simp at h <;>
    (obtain ⟨rfl, rfl, ⟨rfl, _⟩, rfl⟩ := h; simp [Event.isStop])

/-! ## One scan -/

/-- What a scan of `L` adds to the state. -/
theorem scanLines_spec (cli : Docker) (containerID criteria : String) (L : List String)
    (s : Sys) :
    ∃ new : List Event,
      (scanLines cli containerID criteria L s).trace = s.trace ++ new ∧
      (scanLines cli containerID criteria L s).logsCalls = s.logsCalls ∧
      (scanLines cli containerID criteria L s).stopCalls =
        s.stopCalls + L.countP (fun l => Contains l criteria) ∧
      new.countP Event.isStop = L.countP (fun l => Contains l criteria) ∧
      testedLines new = L ∧
      (∀ cur, actuatedLines cur new = L.filter (fun l => Contains l criteria)) ∧
      (∀ e ∈ new, e.isLogs = false) := by
  induction L generalizing s with
  | nil => exact ⟨[], by simp [scanLines, testedLines, actuatedLines]⟩
  | cons l rest ih =>
    cases hc : Contains l criteria with
    | true =>
      simp only [scanLines, hc, if_true]
      obtain ⟨k, chunk, hr, hchunk⟩ := restartContainer_cases cli containerID
          (s.emit [Event.contains l criteria,
            Event.print (Msg.criteriaFound criteria containerID)])
      rw [hr]
      obtain ⟨new, h1, h2, h3, h4, h5, h6, h7⟩ := ih
        ⟨s.logsCalls, s.stopCalls + 1, s.startCalls + k,
          s.trace ++ [Event.contains l criteria,
            Event.print (Msg.criteriaFound criteria containerID)] ++ chunk⟩
      simp only [Sys.emit] at h1 h2 h3 ⊢
      refine ⟨Event.contains l criteria ::
        Event.print (Msg.criteriaFound criteria containerID) :: (chunk ++ new),
        ?_, ?_, ?_, ?_, ?_, ?_, ?_⟩
      · rw [h1]; simp
      · exact h2
      · rw [h3]; simp only [List.countP_cons, hc, if_true]; omega
      · simp only [List.countP_cons (p := fun l => Contains l criteria), hc, if_true, ← h4]
        rcases hchunk with ⟨err, _, _, rfl⟩ | ⟨err, _, _, _, rfl⟩ | ⟨_, _, _, rfl⟩ <;>
          simp [Event.isStop, List.countP_cons]
      · rcases hchunk with ⟨err, _, _, rfl⟩ | ⟨err, _, _, _, rfl⟩ | ⟨_, _, _, rfl⟩ <;>
          simp [testedLines, h5]
      · intro cur
        simp only [List.filter_cons (p := fun l => Contains l criteria), hc, if_true]
        rcases hchunk with ⟨err, _, _, rfl⟩ | ⟨err, _, _, _, rfl⟩ | ⟨_, _, _, rfl⟩ <;>
          simp [actuatedLines, h6]
      · intro e he
        rcases hchunk with ⟨err, _, _, rfl⟩ | ⟨err, _, _, _, rfl⟩ | ⟨_, _, _, rfl⟩ <;>
          simp only [List.mem_cons, List.cons_append, List.nil_append] at he <;>
          rcases he with rfl | rfl | rfl | rfl | he <;>
          first
            | rfl
            | exact h7 e he
            | (rcases he with rfl | rfl | he <;> first | rfl | exact h7 e he)
    | false =>
      simp only [scanLines, hc]
      obtain ⟨new, h1, h2, h3, h4, h5, h6, h7⟩ := ih (s.emit [Event.contains l criteria])
      refine ⟨Event.contains l criteria :: new, ?_, ?_, ?_, ?_, ?_, ?_, ?_⟩
      · simpa [Sys.emit] using h1
      · simpa [Sys.emit, hc] using h2
      · simpa [Sys.emit, hc] using h3
      · simpa [Event.isStop, hc] using h4
      · simpa [testedLines] using h5
      · intro cur; simpa [actuatedLines, hc] using h6 (some l)
      · intro e he
        rcases List.mem_cons.1 he with rfl | he
        · rfl
        · exact h7 e he

/-! ## One streaming session -/

/-- The tested lines of two traces in a row. -/
theorem testedLines_append (a b : List Event) :
    testedLines (a ++ b) = testedLines a ++ testedLines b := by
  induction a with
  | nil => rfl
  | cons e a ih => cases e <;> simp [testedLines, ih]

/-- Events that are neither tests nor stop calls charge no line. -/
theorem actuatedLines_inert (cur : Option String) (b : List Event)
    (hb : ∀ e ∈ b, testedLines [e] = [] ∧ e.isStop = false) :
    actuatedLines cur b = [] := by
  induction b with
  | nil => rfl
  | cons e b ih =>
    have h1 := hb e (List.mem_cons_self _ _)
    have h2 := ih (fun x hx => hb x (List.mem_cons_of_mem _ hx))
    cases e <;> simp_all [actuatedLines, testedLines, Event.isStop]

/-- Trailing events that are neither tests nor stop calls charge no line. -/
theorem actuatedLines_append_inert (cur : Option String) (a b : List Event)
    (hb : ∀ e ∈ b, testedLines [e] = [] ∧ e.isStop = false) :
    actuatedLines cur (a ++ b) = actuatedLines cur a := by
  induction a generalizing cur with
  | nil => simpa [actuatedLines] using actuatedLines_inert cur b hb
  | cons e a ih => cases e <;> simp [actuatedLines, ih]

/-- The end of a session makes no test and no gateway call. -/
theorem sessionEnd_inert (containerID : String) (err : Option String) :
    ∀ e ∈ sessionEnd containerID err,
      testedLines [e] = [] ∧ e.isStop = false ∧ e.isStart = false ∧ e.isLogs = false := by
  intro e he
  cases err <;> simp only [sessionEnd, List.mem_cons, List.mem_singleton,
    List.not_mem_nil, or_false] at he
  · subst he; exact ⟨rfl, rfl, rfl, rfl⟩
  · rcases he with rfl | rfl <;> exact ⟨rfl, rfl, rfl, rfl⟩

/-- A session whose stream opens scans every line and returns. -/
theorem monitorContainerLogs_ok (cli : Docker) (containerID criteria : String) (s : Sys)
    (reader : LogStream) (hopen : cli.logs s.logsCalls containerID = Except.ok reader) :
    monitorContainerLogs cli containerID criteria s =
      Run.ret ()
        ((scanLines cli containerID criteria reader.lines
            ⟨s.logsCalls + 1, s.stopCalls, s.startCalls,
              s.trace ++ [Event.logs containerID none]⟩).emit
          (sessionEnd containerID reader.err)) := by
  obtain ⟨lines, err⟩ := reader
  unfold monitorContainerLogs
  rw [hopen]
  cases err <;> rfl

/-- A scan over lines none of which contains the criteria only tests them. -/
theorem scanLines_of_no_match (cli : Docker) (containerID criteria : String)
    (L : List String) (s : Sys) (hno : ∀ l ∈ L, Contains l criteria = false) :
    scanLines cli containerID criteria L s =
      s.emit (L.map (fun l => Event.contains l criteria)) := by
  induction L generalizing s with
  | nil => simp [scanLines, Sys.emit]
  | cons l rest ih =>
    have hl := hno l (List.mem_cons_self _ _)
    rw [scanLines, if_neg (by simp [hl]),
      ih _ (fun x hx => hno x (List.mem_cons_of_mem _ hx))]
    simp [Sys.emit]

/-- The trace of a session whose stream opens. -/
theorem monitorContainerLogs_spec (cli : Docker) (containerID criteria : String) (s : Sys)
    (reader : LogStream) (hopen : cli.logs s.logsCalls containerID = Except.ok reader) :
    ∃ (s' : Sys) (new : List Event),
      monitorContainerLogs cli containerID criteria s = Run.ret () s' ∧
      s'.trace = s.trace ++ new ∧
      s'.logsCalls = s.logsCalls + 1 ∧
      s'.stopCalls = s.stopCalls + reader.lines.countP (fun l => Contains l criteria) ∧
      new.countP Event.isStop = reader.lines.countP (fun l => Contains l criteria) ∧
      testedLines new = reader.lines ∧
      actuatedLines none new = reader.lines.filter (fun l => Contains l criteria) := by
  obtain ⟨new, h1, h2, h3, h4, h5, h6, -⟩ := scanLines_spec cli containerID criteria
    reader.lines ⟨s.logsCalls + 1, s.stopCalls, s.startCalls,
      s.trace ++ [Event.logs containerID none]⟩
  have hend := sessionEnd_inert containerID reader.err
  refine ⟨_, Event.logs containerID none :: (new ++ sessionEnd containerID reader.err),
    monitorContainerLogs_ok cli containerID criteria s reader hopen, ?_, ?_, ?_, ?_, ?_, ?_⟩
  · simp only [Sys.emit, h1]; simp
  · simpa [Sys.emit] using h2
  · simpa [Sys.emit] using h3
  · rw [List.countP_cons, List.countP_append, h4]
    have : List.countP Event.isStop (sessionEnd containerID reader.err) = 0 := by
      rw [List.countP_eq_zero]
      intro e he
      simp [(hend e he).2.1]
    simp [this, Event.isStop]
  · have : testedLines (sessionEnd containerID reader.err) = [] := by
      cases reader.err <;> rfl
    simp [testedLines, testedLines_append, h5, this]
  · simp only [actuatedLines]
    rw [actuatedLines_append_inert _ _ _ (fun e he => ⟨(hend e he).1, (hend e he).2.1⟩)]
    exact h6 none

/-- Scanning a stream is scanning its first part, then the rest. -/
theorem scanLines_append (cli : Docker) (containerID criteria : String)
    (pre post : List String) (s : Sys) :
    scanLines cli containerID criteria (pre ++ post) s =
      scanLines cli containerID criteria post (scanLines cli containerID criteria pre s) := by
  induction pre generalizing s with
  | nil => rfl
  | cons l pre ih =>
    simp only [List.cons_append, scanLines]
    split <;> exact ih _

/-- The scan up to and including the first line that contains the criteria. -/
theorem scanLines_first_match (cli : Docker) (containerID criteria : String)
    (pre : List String) (l : String) (post : List String) (s : Sys)
    (hpre : ∀ x ∈ pre, Contains x criteria = false) (hl : Contains l criteria = true) :
    ∃ (r : Option String) (rest : List Event),
      (scanLines cli containerID criteria (pre ++ l :: post) s).trace =
        s.trace ++ (pre.map (fun x => Event.contains x criteria) ++
          [Event.contains l criteria, Event.print (Msg.criteriaFound criteria containerID),
           Event.stop containerID r] ++ rest) := by
  rw [scanLines_append, scanLines_of_no_match cli containerID criteria pre s hpre,
    scanLines, if_pos hl]
  obtain ⟨k, chunk, hr, hchunk⟩ := restartContainer_cases cli containerID
    ((s.emit (pre.map (fun x => Event.contains x criteria))).emit
      [Event.contains l criteria, Event.print (Msg.criteriaFound criteria containerID)])
  obtain ⟨new, h1, -⟩ := scanLines_spec cli containerID criteria post
    (restartContainer cli containerID
      ((s.emit (pre.map (fun x => Event.contains x criteria))).emit
        [Event.contains l criteria, Event.print (Msg.criteriaFound criteria containerID)]))
  rw [h1, hr]
  rcases hchunk with ⟨err, _, _, rfl⟩ | ⟨err, _, _, _, rfl⟩ | ⟨_, _, _, rfl⟩
  · exact ⟨some err, Event.log (Msg.stopError containerID err) :: new, by simp [Sys.emit]⟩
  · exact ⟨none, Event.sleep (10 * Second) :: Event.start containerID (some err) ::
      Event.log (Msg.startError containerID err) :: new, by simp [Sys.emit]⟩
  · exact ⟨none, Event.sleep (10 * Second) :: Event.start containerID none ::
      Event.print (Msg.restarted containerID) :: new, by simp [Sys.emit]⟩

/-- Some line satisfying `p` is the first one. -/
theorem exists_first {α : Type} (p : α → Bool) (L : List α) (h : ∃ x ∈ L, p x = true) :
    ∃ pre l post, L = pre ++ l :: post ∧ (∀ x ∈ pre, p x = false) ∧ p l = true := by
  induction L with
  | nil => simp at h
  | cons a L ih =>
    cases ha : p a with
    | true => exact ⟨[], a, L, rfl, by simp, ha⟩
    | false =>
      obtain ⟨x, hx, hpx⟩ := h
      rcases List.mem_cons.1 hx with rfl | hx
      · rw [ha] at hpx; cases hpx
      · obtain ⟨pre, l, post, h1, h2, h3⟩ := ih ⟨x, hx, hpx⟩
        refine ⟨a :: pre, l, post, by rw [h1]; rfl, ?_, h3⟩
        intro y hy
        rcases List.mem_cons.1 hy with rfl | hy
        · exact ha
        · exact h2 y hy

/-! ## The supervisor loop -/

/-- A session starts by opening the log stream. -/
theorem monitorContainerLogs_first_event (cli : Docker) (containerID criteria : String)
    (s : Sys) :
    ∃ (r : Option String) (rest : List Event),
      (monitorContainerLogs cli containerID criteria s).sys.trace =
        s.trace ++ Event.logs containerID r :: rest := by
  cases hopen : cli.logs s.logsCalls containerID with
  | error err =>
    refine ⟨some err,
      [Event.log (Msg.fetchLogsError containerID err), Event.osExit 1], ?_⟩
    simp only [monitorContainerLogs, hopen, Run.sys]
  | ok reader =>
    rw [monitorContainerLogs_ok cli containerID criteria s reader hopen]
    obtain ⟨new, h1, -⟩ := scanLines_spec cli containerID criteria reader.lines
      ⟨s.logsCalls + 1, s.stopCalls, s.startCalls, s.trace ++ [Event.logs containerID none]⟩
    exact ⟨none, new ++ sessionEnd containerID reader.err, by simp [Run.sys, Sys.emit, h1]⟩

/-- The supervisor loop only appends to the trace. -/
theorem supervisorLoop_extends (cli : Docker) (containerID criteria : String)
    (rounds : Nat) (s : Sys) :
    ∃ ext : List Event,
      (supervisorLoop cli containerID criteria rounds s).sys.trace = s.trace ++ ext := by
  induction rounds generalizing s with
  | zero => exact ⟨[], by simp [supervisorLoop, Run.sys]⟩
  | succ n ih =>
    obtain ⟨r, rest, h⟩ := monitorContainerLogs_first_event cli containerID criteria s
    rw [supervisorLoop]
    cases hm : monitorContainerLogs cli containerID criteria s with
    | exit s1 =>
      rw [hm] at h
      exact ⟨_, h⟩
    | ret u s1 =>
      rw [hm] at h
      simp only [Run.sys] at h
      obtain ⟨ext, he⟩ := ih (s1.emit [Event.sleep (2 * Second)])
      exact ⟨Event.logs containerID r :: rest ++ Event.sleep (2 * Second) :: ext, by
        rw [he]; simp [Sys.emit, h]⟩

/-- A round of the supervisor loop starts by opening the log stream. -/
theorem supervisorLoop_first_event (cli : Docker) (containerID criteria : String)
    (rounds : Nat) (s : Sys) :
    ∃ (r : Option String) (rest : List Event),
      (supervisorLoop cli containerID criteria (rounds + 1) s).sys.trace =
        s.trace ++ Event.logs containerID r :: rest := by
  obtain ⟨r, rest, h⟩ := monitorContainerLogs_first_event cli containerID criteria s
  rw [supervisorLoop]
  cases hm : monitorContainerLogs cli containerID criteria s with
  | exit s1 =>
    rw [hm] at h
    exact ⟨r, rest, h⟩
  | ret u s1 =>
    rw [hm] at h
    simp only [Run.sys] at h
    obtain ⟨ext, he⟩ := supervisorLoop_extends cli containerID criteria rounds
      (s1.emit [Event.sleep (2 * Second)])
    exact ⟨r, rest ++ Event.sleep (2 * Second) :: ext, by rw [he]; simp [Sys.emit, h]⟩

/-! ## Earlier events do not influence later steps -/

/-- Appending events commutes with earlier history. -/
theorem emit_prepend (t : List Event) (s : Sys) (es : List Event) :
    (s.prepend t).emit es = (s.emit es).prepend t := by
  simp [Sys.prepend, Sys.emit]

/-- One actuation does not look at the trace. -/
theorem restartContainer_prepend (cli : Docker) (containerID : String) (t : List Event)
    (s : Sys) :
    restartContainer cli containerID (s.prepend t) =
      (restartContainer cli containerID s).prepend t := by
  simp only [restartContainer, Sys.prepend]
  cases cli.stop s.stopCalls containerID with
  | some err => simp
  | none => cases cli.start s.startCalls containerID <;> simp

/-- A scan does not look at the trace. -/
theorem scanLines_prepend (cli : Docker) (containerID criteria : String) (t : List Event)
    (L : List String) (s : Sys) :
    scanLines cli containerID criteria L (s.prepend t) =
      (scanLines cli containerID criteria L s).prepend t := by
  induction L generalizing s with
  | nil => rfl
  | cons l rest ih =>
    simp only [scanLines]
    split
    · rw [emit_prepend, restartContainer_prepend, ih]
    · rw [emit_prepend, ih]

/-- A session does not look at the trace. -/
theorem monitorContainerLogs_prepend (cli : Docker) (containerID criteria : String)
    (t : List Event) (s : Sys) :
    monitorContainerLogs cli containerID criteria (s.prepend t) =
      (monitorContainerLogs cli containerID criteria s).prepend t := by
  cases hopen : cli.logs s.logsCalls containerID with
  | error err =>
    simp [monitorContainerLogs, Sys.prepend, Run.prepend, hopen]
  | ok reader =>
    rw [monitorContainerLogs_ok cli containerID criteria s reader hopen,
      monitorContainerLogs_ok cli containerID criteria (s.prepend t) reader hopen]
    have : (⟨(s.prepend t).logsCalls + 1, (s.prepend t).stopCalls, (s.prepend t).startCalls,
        (s.prepend t).trace ++ [Event.logs containerID none]⟩ : Sys) =
        (⟨s.logsCalls + 1, s.stopCalls, s.startCalls,
          s.trace ++ [Event.logs containerID none]⟩ : Sys).prepend t := by
      simp [Sys.prepend]
    rw [this, scanLines_prepend, emit_prepend]
    rfl

/-- The supervisor loop does not look at the trace. -/
theorem supervisorLoop_prepend (cli : Docker) (containerID criteria : String)
    (t : List Event) (rounds : Nat) (s : Sys) :
    supervisorLoop cli containerID criteria rounds (s.prepend t) =
      (supervisorLoop cli containerID criteria rounds s).prepend t := by
  induction rounds generalizing s with
  | zero => rfl
  | succ n ih =>
    simp only [supervisorLoop]
    rw [monitorContainerLogs_prepend]
    cases monitorContainerLogs cli containerID criteria s with
    | exit s1 => rfl
    | ret u s1 =>
      show supervisorLoop cli containerID criteria n
          ((s1.prepend t).emit [Event.sleep (2 * Second)]) =
        (supervisorLoop cli containerID criteria n
          (s1.emit [Event.sleep (2 * Second)])).prepend t
      rw [emit_prepend, ih]

/-- The remainder of the loop does not look at the trace. -/
theorem restOfLoop_prepend (cli : Docker) (containerID criteria : String)
    (post : List String) (readErr : Option String) (rounds : Nat) (t : List Event)
    (x : Sys) :
    restOfLoop cli containerID criteria post readErr rounds (x.prepend t) =
      (restOfLoop cli containerID criteria post readErr rounds x).prepend t := by
  simp only [restOfLoop]
  rw [scanLines_prepend, emit_prepend, emit_prepend, supervisorLoop_prepend]

/-- The trace of a run with earlier history put in front. -/
theorem Run.sys_prepend {α : Type} (t : List Event) (r : Run α) :
    (r.prepend t).sys.trace = t ++ r.sys.trace := by
  cases r <;> rfl

/-- Earlier history does not change how a run ends. -/
theorem Run.exited_prepend {α : Type} (t : List Event) (r : Run α) :
    (r.prepend t).exited = r.exited := by
  cases r <;> rfl

/-- The trace added by the remainder of the loop from a state with no history. -/
theorem restOfLoop_trace (cli : Docker) (containerID criteria : String)
    (post : List String) (readErr : Option String) (rounds : Nat) (x : Sys)
    (hx : x.trace = []) :
    ∃ mid more : List Event,
      testedLines mid = post ∧
      (restOfLoop cli containerID criteria post readErr rounds x).sys.trace =
        mid ++ sessionEnd containerID readErr ++ Event.sleep (2 * Second) :: more ∧
      (0 < rounds → ∃ r more', more = Event.logs containerID r :: more') := by
  obtain ⟨mid, h1, -, -, -, h5, -⟩ := scanLines_spec cli containerID criteria post x
  rw [hx, List.nil_append] at h1
  cases rounds with
  | zero =>
    exact ⟨mid, [], h5, by simp [restOfLoop, supervisorLoop, Run.sys, Sys.emit, h1],
      fun h => absurd h (by decide)⟩
  | succ n =>
    obtain ⟨r, rest, h⟩ := supervisorLoop_first_event cli containerID criteria n
      (((scanLines cli containerID criteria post x).emit
        (sessionEnd containerID readErr)).emit [Event.sleep (2 * Second)])
    exact ⟨mid, Event.logs containerID r :: rest, h5,
      by rw [restOfLoop, h]; simp [Sys.emit, h1], fun _ => ⟨r, rest, rfl⟩⟩

/-! ## The startup sequence -/

/-- The outcomes of the startup sequence of `main`, case by case. -/
theorem mainStartup_cases (env : Startup) (cli : Docker) :
    (∃ err, env.clientErr = some err ∧
      mainStartup env cli = Run.exit ⟨0, 0, 0,
        dotenvNotice env.dotenvErr ++ [Event.log (Msg.clientInitError err), Event.osExit 1]⟩) ∨
    (env.clientErr = none ∧ env.getenv "CONTAINER_NAME" = "" ∧
      mainStartup env cli = Run.exit ⟨0, 0, 0,
        dotenvNotice env.dotenvErr ++ [Event.log Msg.containerNameNotSet, Event.osExit 1]⟩) ∨
    (∃ err, env.clientErr = none ∧ env.getenv "CONTAINER_NAME" ≠ "" ∧
      cli.inspect (env.getenv "CONTAINER_NAME") = Except.error err ∧
      mainStartup env cli = Run.exit ⟨0, 0, 0,
        dotenvNotice env.dotenvErr ++
          [Event.inspect (env.getenv "CONTAINER_NAME") (some err),
           Event.log (Msg.resolveError
             ("container " ++ env.getenv "CONTAINER_NAME" ++ " not found or not running")),
           Event.osExit 1]⟩) ∨
    (∃ containerID, env.clientErr = none ∧ env.getenv "CONTAINER_NAME" ≠ "" ∧
      cli.inspect (env.getenv "CONTAINER_NAME") = Except.ok containerID ∧
      env.getenv "ERROR_MSG" = "" ∧
      mainStartup env cli = Run.exit ⟨0, 0, 0,
        dotenvNotice env.dotenvErr ++
          [Event.inspect (env.getenv "CONTAINER_NAME") none,
           Event.log Msg.errorMsgNotSet, Event.osExit 1]⟩) ∨
    (∃ containerID, env.clientErr = none ∧ env.getenv "CONTAINER_NAME" ≠ "" ∧
      cli.inspect (env.getenv "CONTAINER_NAME") = Except.ok containerID ∧
      env.getenv "ERROR_MSG" ≠ "" ∧
      mainStartup env cli = Run.ret (containerID, env.getenv "ERROR_MSG") ⟨0, 0, 0,
        dotenvNotice env.dotenvErr ++
          [Event.inspect (env.getenv "CONTAINER_NAME") none]⟩) := by
  obtain ⟨de, ce, ge⟩ := env
  cases de <;> cases ce <;>
    by_cases hname : ge "CONTAINER_NAME" = "" <;>
    cases hin : cli.inspect (ge "CONTAINER_NAME") <;>
    by_cases hmsg : ge "ERROR_MSG" = "" <;>
    simp [mainStartup, resolveContainerID, dotenvNotice, Sys.emit, Sys.init, hname, hin, hmsg]

/-- The `.env` notice is no gateway call. -/
theorem dotenvNotice_inert (d : Option String) :
    ∀ e ∈ dotenvNotice d,
      e.isGateway = false ∧ e.isLogs = false ∧ e.isStop = false ∧ e.isStart = false := by
  intro e he
  cases d with
  | none => simp [dotenvNotice] at he
  | some x =>
    simp only [dotenvNotice, List.mem_singleton] at he
    subst he
    exact ⟨rfl, rfl, rfl, rfl⟩

/-- The `.env` notice does not show among the gateway calls. -/
theorem gatewayCalls_dotenvNotice (d : Option String) (es : List Event) :
    gatewayCalls (dotenvNotice d ++ es) = gatewayCalls es := by
  cases d <;> simp [gatewayCalls, dotenvNotice, Event.isGateway]

/-- If the startup sequence exits, so does `main`. -/
theorem main_of_startup_exit (env : Startup) (cli : Docker) (rounds : Nat) (s : Sys)
    (h : mainStartup env cli = Run.exit s) : main env cli rounds = Run.exit s := by
  simp [main, h]

/-- If the startup sequence succeeds, `main` runs the supervisor loop on its result. -/
theorem main_of_startup_ret (env : Startup) (cli : Docker) (rounds : Nat)
    (containerID msgErrCriteria : String) (s : Sys)
    (h : mainStartup env cli = Run.ret (containerID, msgErrCriteria) s) :
    main env cli rounds = supervisorLoop cli containerID msgErrCriteria rounds s := by
  simp [main, h]

/-- With an empty `ERROR_MSG`, `main` ends in a fatal error before any log stream
is opened. -/
theorem main_fatal_of_empty_criteria (env : Startup) (cli : Docker) (rounds : Nat)
    (hempty : env.getenv "ERROR_MSG" = "") :
    ∃ (s : Sys) (pre : List Event) (m : Msg),
      main env cli rounds = Run.exit s ∧
      s.trace = pre ++ [Event.log m, Event.osExit 1] ∧
      ∀ e ∈ s.trace, e.isLogs = false := by
  have hin := dotenvNotice_inert env.dotenvErr
  have hmem : ∀ (es : List Event), (∀ e ∈ es, e.isLogs = false) →
      ∀ e ∈ dotenvNotice env.dotenvErr ++ es, e.isLogs = false := by
    intro es hes e he
    rcases List.mem_append.1 he with he | he
    · exact (hin e he).2.1
    · exact hes e he
  rcases mainStartup_cases env cli with
    ⟨e, hc, h⟩ | ⟨hc, hn, h⟩ | ⟨e, hc, hn, hi, h⟩ | ⟨cid, hc, hn, hi, hm, h⟩ |
    ⟨cid, hc, hn, hi, hm, h⟩
  · exact ⟨_, dotenvNotice env.dotenvErr, Msg.clientInitError e,
      main_of_startup_exit env cli rounds _ h, rfl, hmem _ (by
        intro x hx
        simp only [List.mem_cons, List.mem_singleton, List.not_mem_nil, or_false] at hx
        rcases hx with rfl | rfl <;> rfl)⟩
  · exact ⟨_, dotenvNotice env.dotenvErr, Msg.containerNameNotSet,
      main_of_startup_exit env cli rounds _ h, rfl, hmem _ (by
        intro x hx
        simp only [List.mem_cons, List.mem_singleton, List.not_mem_nil, or_false] at hx
        rcases hx with rfl | rfl <;> rfl)⟩
  · exact ⟨_, dotenvNotice env.dotenvErr ++
        [Event.inspect (env.getenv "CONTAINER_NAME") (some e)],
      Msg.resolveError
        ("container " ++ env.getenv "CONTAINER_NAME" ++ " not found or not running"),
      main_of_startup_exit env cli rounds _ h, by simp,
      hmem _ (by
        intro x hx
        simp only [List.mem_cons, List.mem_singleton, List.not_mem_nil, or_false] at hx
        rcases hx with rfl | rfl | rfl <;> rfl)⟩
  · exact ⟨_, dotenvNotice env.dotenvErr ++
        [Event.inspect (env.getenv "CONTAINER_NAME") none], Msg.errorMsgNotSet,
      main_of_startup_exit env cli rounds _ h, by simp,
      hmem _ (by
        intro x hx
        simp only [List.mem_cons, List.mem_singleton, List.not_mem_nil, or_false] at hx
        rcases hx with rfl | rfl | rfl <;> rfl)⟩
  · exact absurd hempty hm

/-! ## The claims -/

/-- Claim C1, as stated, fails. With two lines containing the pattern the session
stops the container twice, not once; and on the stream of the scenario the fourth
line, which follows the matching line, is still handed to `strings.Contains`. -/
theorem C1_counterexample :
    ((monitorContainerLogs (scriptedDocker ["OOM one", "OOM two"] none none)
        "abc" "OOM" Sys.init).sys.trace.countP Event.isStop = 2) ∧
    ¬ ((monitorContainerLogs (scriptedDocker ["OOM one", "OOM two"] none none)
        "abc" "OOM" Sys.init).sys.trace.countP Event.isStop = 1) ∧
    testedLines (monitorContainerLogs
        (scriptedDocker ["starting", "ok", "OOM killed process 4", "recovering"] none none)
        "abc" "OOM" Sys.init).sys.trace =
      ["starting", "ok", "OOM killed process 4", "recovering"] ∧
    Event.contains "recovering" "OOM" ∈ (monitorContainerLogs
        (scriptedDocker ["starting", "ok", "OOM killed process 4", "recovering"] none none)
        "abc" "OOM" Sys.init).sys.trace := by
  decide

/-- Claim C1, amended. In a session whose stream opens and in which some line
contains `P`, `restartContainer` is invoked once for every line containing `P`, hence
at least once; every line of the stream is tested, also those after the first
match; and the first invocation comes on the first line containing `P`: the trace
of the session starts with the stream being opened, the tests of the lines before
that line, its own test, the notice, and the stop call. -/
theorem C1_restart_on_each_matching_line (cli : Docker) (containerID P : String) (s : Sys)
    (reader : LogStream) (hopen : cli.logs s.logsCalls containerID = Except.ok reader)
    (hmatch : ∃ l ∈ reader.lines, P.toList <:+: l.toList) :
    ∃ (s' : Sys) (new : List Event),
      monitorContainerLogs cli containerID P s = Run.ret () s' ∧
      s'.trace = s.trace ++ new ∧
      1 ≤ new.countP Event.isStop ∧
      new.countP Event.isStop =
        reader.lines.countP (fun l => decide (P.toList <:+: l.toList)) ∧
      testedLines new = reader.lines ∧
      ∃ (pre : List String) (l : String) (post : List String) (r : Option String)
          (rest : List Event),
        reader.lines = pre ++ l :: post ∧
        (∀ x ∈ pre, ¬ P.toList <:+: x.toList) ∧
        P.toList <:+: l.toList ∧
        new = Event.logs containerID none :: pre.map (fun x => Event.contains x P) ++
          [Event.contains l P, Event.print (Msg.criteriaFound P containerID),
           Event.stop containerID r] ++ rest := by
  obtain ⟨s', new, h1, h2, -, -, h5, h6, -⟩ :=
    monitorContainerLogs_spec cli containerID P s reader hopen
  obtain ⟨pre, l, post, hL, hpre, hl⟩ :=
    exists_first (fun l => Contains l P) reader.lines
      (by obtain ⟨l, hl, hm⟩ := hmatch; exact ⟨l, hl, (Contains_iff _ _).2 hm⟩)
  rw [decide_infix_eq_Contains]
  refine ⟨s', new, h1, h2, ?_, h5, h6, pre, l, post, ?_⟩
  · rw [h5]
    exact List.countP_pos_iff.2 (by
      obtain ⟨l, hl, hm⟩ := hmatch; exact ⟨l, hl, (Contains_iff _ _).2 hm⟩)
  · obtain ⟨r, rest, hscan⟩ := scanLines_first_match cli containerID P pre l post
      ⟨s.logsCalls + 1, s.stopCalls, s.startCalls, s.trace ++ [Event.logs containerID none]⟩
      hpre hl
    refine ⟨r, rest ++ sessionEnd containerID reader.err, hL, ?_, (Contains_iff _ _).1 hl, ?_⟩
    · intro x hx hm
      have := hpre x hx
      rw [(Contains_iff _ _).2 hm] at this
      cases this
    · have hok := monitorContainerLogs_ok cli containerID P s reader hopen
      rw [h1, hL] at hok
      have ht := congrArg Sys.trace (Run.ret.inj hok).2
      rw [h2] at ht
      simp only [Sys.emit, hscan] at ht
      simp only [List.append_assoc] at ht
      have := List.append_cancel_left ht
      rw [this]
      simp

/-- The amended claim C1 on the stream of the scenario. -/
theorem C1_restart_on_each_matching_line_witness :
    (scriptedDocker ["starting", "ok", "OOM killed process 4", "recovering"] none none).logs
        Sys.init.logsCalls "abc" =
      Except.ok ⟨["starting", "ok", "OOM killed process 4", "recovering"], none⟩ ∧
    (∃ l ∈ (["starting", "ok", "OOM killed process 4", "recovering"] : List String),
      "OOM".toList <:+: l.toList) ∧
    ∃ (s' : Sys) (new : List Event),
      monitorContainerLogs
        (scriptedDocker ["starting", "ok", "OOM killed process 4", "recovering"] none none)
        "abc" "OOM" Sys.init = Run.ret () s' ∧
      s'.trace = Sys.init.trace ++ new ∧
      1 ≤ new.countP Event.isStop ∧
      new.countP Event.isStop =
        (["starting", "ok", "OOM killed process 4", "recovering"] : List String).countP
          (fun l => decide ("OOM".toList <:+: l.toList)) ∧
      testedLines new = ["starting", "ok", "OOM killed process 4", "recovering"] ∧
      ∃ (pre : List String) (l : String) (post : List String) (r : Option String)
          (rest : List Event),
        (["starting", "ok", "OOM killed process 4", "recovering"] : List String) =
          pre ++ l :: post ∧
        (∀ x ∈ pre, ¬ "OOM".toList <:+: x.toList) ∧
        "OOM".toList <:+: l.toList ∧
        new = Event.logs "abc" none :: pre.map (fun x => Event.contains x "OOM") ++
          [Event.contains l "OOM", Event.print (Msg.criteriaFound "OOM" "abc"),
           Event.stop "abc" r] ++ rest :=
  ⟨rfl, ⟨"OOM killed process 4", by decide, by decide⟩,
    C1_restart_on_each_matching_line
      (scriptedDocker ["starting", "ok", "OOM killed process 4", "recovering"] none none)
      "abc" "OOM" Sys.init ⟨["starting", "ok", "OOM killed process 4", "recovering"], none⟩
      rfl ⟨"OOM killed process 4", by decide, by decide⟩⟩

/-- Claim C2, as stated, fails. When every `ContainerLogs` call fails, three rounds
of the supervisor loop end in `os.Exit(1)` after the first attempt: the trace holds
one stream-open call and no cooldown sleep. -/
theorem C2_counterexample :
    supervisorLoop unreachableDocker "abc" "OOM" 3 Sys.init =
      Run.exit ⟨1, 0, 0,
        [Event.logs "abc" (some "daemon unreachable"),
         Event.log (Msg.fetchLogsError "abc" "daemon unreachable"), Event.osExit 1]⟩ ∧
    (supervisorLoop unreachableDocker "abc" "OOM" 3 Sys.init).exited = true ∧
    Event.sleep (2 * Second) ∉
      (supervisorLoop unreachableDocker "abc" "OOM" 3 Sys.init).sys.trace ∧
    (supervisorLoop unreachableDocker "abc" "OOM" 3 Sys.init).sys.trace.countP
      Event.isLogs = 1 := by
  decide

/-- Claim C2, amended. When opening the log stream fails, the supervisor loop logs
the failure and the process exits with status 1: however many rounds were still to
run, the trace gains the failed `ContainerLogs` call, the log line and the exit,
and nothing else, so no cooldown and no further session follow. -/
theorem C2_stream_open_failure_is_fatal (cli : Docker) (containerID P : String) (s : Sys)
    (err : String) (rounds : Nat)
    (hfail : cli.logs s.logsCalls containerID = Except.error err) :
    supervisorLoop cli containerID P (rounds + 1) s =
      Run.exit
        { s with
          logsCalls := s.logsCalls + 1
          trace := s.trace ++
            [Event.logs containerID (some err),
             Event.log (Msg.fetchLogsError containerID err), Event.osExit 1] } := by
  simp only [supervisorLoop, monitorContainerLogs, hfail]

/-- The amended claim C2 on a daemon that cannot be reached. -/
theorem C2_stream_open_failure_is_fatal_witness :
    unreachableDocker.logs Sys.init.logsCalls "abc" = Except.error "daemon unreachable" ∧
    supervisorLoop unreachableDocker "abc" "OOM" (2 + 1) Sys.init =
      Run.exit
        { Sys.init with
          logsCalls := Sys.init.logsCalls + 1
          trace := Sys.init.trace ++
            [Event.logs "abc" (some "daemon unreachable"),
             Event.log (Msg.fetchLogsError "abc" "daemon unreachable"), Event.osExit 1] } :=
  ⟨rfl, C2_stream_open_failure_is_fatal unreachableDocker "abc" "OOM" Sys.init
    "daemon unreachable" 2 rfl⟩

/-- Claim C3. If `ContainerStop` returns an error, `restartContainer` returns after
logging it: the trace gains the failed stop call and the log line only, the number
of start calls is unchanged, and no added event is a `ContainerStart` call. -/
theorem C3_stop_failure_skips_start (cli : Docker) (containerID : String) (s : Sys)
    (err : String) (hstop : cli.stop s.stopCalls containerID = some err) :
    restartContainer cli containerID s =
      { s with
        stopCalls := s.stopCalls + 1
        trace := s.trace ++
          [Event.stop containerID (some err), Event.log (Msg.stopError containerID err)] } ∧
    (restartContainer cli containerID s).startCalls = s.startCalls ∧
    ∀ e ∈ (restartContainer cli containerID s).trace.drop s.trace.length,
      e.isStart = false := by
  have h : restartContainer cli containerID s =
      { s with
        stopCalls := s.stopCalls + 1
        trace := s.trace ++
          [Event.stop containerID (some err), Event.log (Msg.stopError containerID err)] } := by
    simp only [restartContainer, hstop]
  refine ⟨h, by rw [h], ?_⟩
  rw [h]
  intro e he
  simp only [List.drop_left, List.mem_cons, List.mem_singleton, List.not_mem_nil,
    or_false] at he
  rcases he with rfl | rfl <;> rfl

/-- Claim C3 on a daemon that rejects the stop. -/
theorem C3_stop_failure_skips_start_witness :
    (scriptedDocker [] (some "busy") none).stop Sys.init.stopCalls "abc" = some "busy" ∧
    restartContainer (scriptedDocker [] (some "busy") none) "abc" Sys.init =
      { Sys.init with
        stopCalls := Sys.init.stopCalls + 1
        trace := Sys.init.trace ++
          [Event.stop "abc" (some "busy"), Event.log (Msg.stopError "abc" "busy")] } ∧
    (restartContainer (scriptedDocker [] (some "busy") none) "abc" Sys.init).startCalls =
      Sys.init.startCalls ∧
    ∀ e ∈ (restartContainer (scriptedDocker [] (some "busy") none) "abc"
        Sys.init).trace.drop Sys.init.trace.length,
      e.isStart = false :=
  ⟨rfl, C3_stop_failure_skips_start (scriptedDocker [] (some "busy") none) "abc" Sys.init
    "busy" rfl⟩

/-- Claim C4, as stated, fails. With `CONTAINER_NAME` set and `ERROR_MSG` empty,
`main` inspects the container before it reports the missing variable: the trace of
gateway calls is not empty. -/
theorem C4_counterexample :
    (envOf "web-1" "").getenv "ERROR_MSG" = "" ∧
    main (envOf "web-1" "") (scriptedDocker [] none none) 1 =
      Run.exit ⟨0, 0, 0,
        [Event.inspect "web-1" none, Event.log Msg.errorMsgNotSet, Event.osExit 1]⟩ ∧
    gatewayCalls (main (envOf "web-1" "") (scriptedDocker [] none none) 1).sys.trace =
      [Event.inspect "web-1" none] ∧
    ¬ (gatewayCalls (main (envOf "web-1" "") (scriptedDocker [] none none) 1).sys.trace =
      []) := by
  decide

/-- Claim C4, amended. If `CONTAINER_NAME` or `ERROR_MSG` is empty, `main` ends with
a log line and `os.Exit(1)`, and never opens a log stream nor calls stop or start.
If `CONTAINER_NAME` is empty no gateway call is made, and the error is the
`CONTAINER_NAME` one once the client was built. If the client cannot be built the
error is the client one and no gateway call is made. If `CONTAINER_NAME` is set,
the name is inspected first: the gateway calls are that single inspect call, and the
error is the `ERROR_MSG` one when the inspect succeeds, the resolution one when it
fails. -/
theorem C4_missing_configuration_is_fatal (env : Startup) (cli : Docker) (rounds : Nat)
    (hmissing : env.getenv "CONTAINER_NAME" = "" ∨ env.getenv "ERROR_MSG" = "") :
    ∃ (s : Sys) (pre : List Event) (m : Msg),
      main env cli rounds = Run.exit s ∧
      s.trace = pre ++ [Event.log m, Event.osExit 1] ∧
      (∀ e ∈ s.trace, e.isLogs = false ∧ e.isStop = false ∧ e.isStart = false) ∧
      (env.getenv "CONTAINER_NAME" = "" → gatewayCalls s.trace = []) ∧
      (∀ err, env.clientErr = some err →
        m = Msg.clientInitError err ∧ gatewayCalls s.trace = []) ∧
      (env.clientErr = none → env.getenv "CONTAINER_NAME" = "" →
        m = Msg.containerNameNotSet) ∧
      (env.clientErr = none → env.getenv "CONTAINER_NAME" ≠ "" →
        (∀ containerID,
          cli.inspect (env.getenv "CONTAINER_NAME") = Except.ok containerID →
            m = Msg.errorMsgNotSet ∧
            gatewayCalls s.trace = [Event.inspect (env.getenv "CONTAINER_NAME") none]) ∧
        (∀ err,
          cli.inspect (env.getenv "CONTAINER_NAME") = Except.error err →
            m = Msg.resolveError
              ("container " ++ env.getenv "CONTAINER_NAME" ++ " not found or not running") ∧
            gatewayCalls s.trace =
              [Event.inspect (env.getenv "CONTAINER_NAME") (some err)])) := by
  have hin := dotenvNotice_inert env.dotenvErr
  rcases mainStartup_cases env cli with
    ⟨err, hc, h⟩ | ⟨hc, hn, h⟩ | ⟨err, hc, hn, hi, h⟩ | ⟨cid, hc, hn, hi, hm, h⟩ |
    ⟨cid, hc, hn, hi, hm, h⟩
  · refine ⟨_, dotenvNotice env.dotenvErr, Msg.clientInitError err, main_of_startup_exit env cli rounds _ h, rfl,
      ?_, ?_, ?_, ?_, ?_⟩
    · intro e he
      rcases List.mem_append.1 he with he | he
      · exact ⟨(hin e he).2.1, (hin e he).2.2.1, (hin e he).2.2.2⟩
      · simp only [List.mem_cons, List.mem_singleton, List.not_mem_nil, or_false] at he
        rcases he with rfl | rfl <;> exact ⟨rfl, rfl, rfl⟩
    · intro _; rw [gatewayCalls_dotenvNotice]; rfl
    · intro err' he
      rw [hc] at he
      cases he
      exact ⟨rfl, by rw [gatewayCalls_dotenvNotice]; rfl⟩
    · intro he; rw [hc] at he; cases he
    · intro he; rw [hc] at he; cases he
  · refine ⟨_, dotenvNotice env.dotenvErr, Msg.containerNameNotSet, main_of_startup_exit env cli rounds _ h, rfl,
      ?_, ?_, ?_, ?_, ?_⟩
    · intro e he
      rcases List.mem_append.1 he with he | he
      · exact ⟨(hin e he).2.1, (hin e he).2.2.1, (hin e he).2.2.2⟩
      · simp only [List.mem_cons, List.mem_singleton, List.not_mem_nil, or_false] at he
        rcases he with rfl | rfl <;> exact ⟨rfl, rfl, rfl⟩
    · intro _; rw [gatewayCalls_dotenvNotice]; rfl
    · intro err' he; rw [hc] at he; cases he
    · intro _ _; rfl
    · intro _ hne; exact absurd hn hne
  · refine ⟨_, dotenvNotice env.dotenvErr ++
        [Event.inspect (env.getenv "CONTAINER_NAME") (some err)],
      Msg.resolveError
        ("container " ++ env.getenv "CONTAINER_NAME" ++ " not found or not running"),
      main_of_startup_exit env cli rounds _ h, by simp, ?_, ?_, ?_, ?_, ?_⟩
    · intro e he
      rcases List.mem_append.1 he with he | he
      · exact ⟨(hin e he).2.1, (hin e he).2.2.1, (hin e he).2.2.2⟩
      · simp only [List.mem_cons, List.mem_singleton, List.not_mem_nil, or_false] at he
        rcases he with rfl | rfl | rfl <;> exact ⟨rfl, rfl, rfl⟩
    · intro he; exact absurd he hn
    · intro err' he; rw [hc] at he; cases he
    · intro _ he; exact absurd he hn
    · intro _ _
      refine ⟨?_, ?_⟩
      · intro cid hcid; rw [hi] at hcid; cases hcid
      · intro err' herr
        rw [hi] at herr
        cases herr
        exact ⟨rfl, by rw [gatewayCalls_dotenvNotice]; rfl⟩
  · refine ⟨_, dotenvNotice env.dotenvErr ++
        [Event.inspect (env.getenv "CONTAINER_NAME") none], Msg.errorMsgNotSet,
      main_of_startup_exit env cli rounds _ h, by simp, ?_, ?_, ?_, ?_, ?_⟩
    · intro e he
      rcases List.mem_append.1 he with he | he
      · exact ⟨(hin e he).2.1, (hin e he).2.2.1, (hin e he).2.2.2⟩
      · simp only [List.mem_cons, List.mem_singleton, List.not_mem_nil, or_false] at he
        rcases he with rfl | rfl | rfl <;> exact ⟨rfl, rfl, rfl⟩
    · intro he; exact absurd he hn
    · intro err' he; rw [hc] at he; cases he
    · intro _ he; exact absurd he hn
    · intro _ _
      refine ⟨?_, ?_⟩
      · intro cid' _
        exact ⟨rfl, by rw [gatewayCalls_dotenvNotice]; rfl⟩
      · intro err' herr; rw [hi] at herr; cases herr
  · rcases hmissing with h1 | h1
    · exact absurd h1 hn
    · exact absurd h1 hm

/-- The amended claim C4 with `CONTAINER_NAME` set and `ERROR_MSG` empty. -/
theorem C4_missing_configuration_is_fatal_witness :
    ((envOf "web-1" "").getenv "CONTAINER_NAME" = "" ∨
      (envOf "web-1" "").getenv "ERROR_MSG" = "") ∧
    ∃ (s : Sys) (pre : List Event) (m : Msg),
      main (envOf "web-1" "") emptyDocker 3 = Run.exit s ∧
      s.trace = pre ++ [Event.log m, Event.osExit 1] ∧
      (∀ e ∈ s.trace, e.isLogs = false ∧ e.isStop = false ∧ e.isStart = false) ∧
      ((envOf "web-1" "").getenv "CONTAINER_NAME" = "" → gatewayCalls s.trace = []) ∧
      (∀ err, (envOf "web-1" "").clientErr = some err →
        m = Msg.clientInitError err ∧ gatewayCalls s.trace = []) ∧
      ((envOf "web-1" "").clientErr = none → (envOf "web-1" "").getenv "CONTAINER_NAME" = "" →
        m = Msg.containerNameNotSet) ∧
      ((envOf "web-1" "").clientErr = none → (envOf "web-1" "").getenv "CONTAINER_NAME" ≠ "" →
        (∀ containerID,
          emptyDocker.inspect ((envOf "web-1" "").getenv "CONTAINER_NAME") =
              Except.ok containerID →
            m = Msg.errorMsgNotSet ∧
            gatewayCalls s.trace =
              [Event.inspect ((envOf "web-1" "").getenv "CONTAINER_NAME") none]) ∧
        (∀ err,
          emptyDocker.inspect ((envOf "web-1" "").getenv "CONTAINER_NAME") =
              Except.error err →
            m = Msg.resolveError
              ("container " ++ (envOf "web-1" "").getenv "CONTAINER_NAME" ++
                " not found or not running") ∧
            gatewayCalls s.trace =
              [Event.inspect ((envOf "web-1" "").getenv "CONTAINER_NAME") (some err)])) :=
  ⟨Or.inr (by decide),
    C4_missing_configuration_is_fatal (envOf "web-1" "") emptyDocker 3 (Or.inr (by decide))⟩

/-- Claim C5. In a session whose stream opens and in which no line contains `P`,
the trace gains the stream-open call, one test per line and the end of the session,
so no stop and no start call; the session returns; the supervisor loop then sleeps
two seconds, and its next round starts by opening the log stream again. -/
theorem C5_no_match_no_restart (cli : Docker) (containerID P : String) (s : Sys)
    (reader : LogStream) (rounds : Nat)
    (hopen : cli.logs s.logsCalls containerID = Except.ok reader)
    (hno : ∀ l ∈ reader.lines, ¬ P.toList <:+: l.toList) :
    ∃ s' : Sys,
      monitorContainerLogs cli containerID P s = Run.ret () s' ∧
      s'.trace = s.trace ++ Event.logs containerID none ::
        reader.lines.map (fun l => Event.contains l P) ++ sessionEnd containerID reader.err ∧
      s'.stopCalls = s.stopCalls ∧ s'.startCalls = s.startCalls ∧
      (∀ e ∈ s'.trace.drop s.trace.length, e.isStop = false ∧ e.isStart = false) ∧
      supervisorLoop cli containerID P (rounds + 1) s =
        supervisorLoop cli containerID P rounds (s'.emit [Event.sleep (2 * Second)]) ∧
      ∃ (r : Option String) (rest : List Event),
        (supervisorLoop cli containerID P (rounds + 2) s).sys.trace =
          s'.trace ++ Event.sleep (2 * Second) :: Event.logs containerID r :: rest := by
  have hno' : ∀ l ∈ reader.lines, Contains l P = false := by
    intro l hl
    rw [← Bool.not_eq_true, Contains_iff]
    exact hno l hl
  have hok := monitorContainerLogs_ok cli containerID P s reader hopen
  rw [scanLines_of_no_match cli containerID P reader.lines _ hno'] at hok
  have hloop : ∀ n, supervisorLoop cli containerID P (n + 1) s =
      supervisorLoop cli containerID P n
        ((((⟨s.logsCalls + 1, s.stopCalls, s.startCalls,
          s.trace ++ [Event.logs containerID none]⟩ : Sys).emit
            (reader.lines.map (fun l => Event.contains l P))).emit
              (sessionEnd containerID reader.err)).emit [Event.sleep (2 * Second)]) := by
    intro n
    rw [supervisorLoop, hok]
  refine ⟨_, hok, by simp [Sys.emit], rfl, rfl, ?_, hloop rounds, ?_⟩
  · intro e he
    simp only [Sys.emit, List.append_assoc, List.drop_left, List.singleton_append,
      List.mem_cons, List.mem_append, List.mem_map] at he
    rcases he with (rfl | ⟨l, -, rfl⟩) | he
    · exact ⟨rfl, rfl⟩
    · exact ⟨rfl, rfl⟩
    · exact ⟨(sessionEnd_inert containerID reader.err e he).2.1,
        (sessionEnd_inert containerID reader.err e he).2.2.1⟩
  · rw [hloop (rounds + 1)]
    obtain ⟨r, rest, h⟩ := supervisorLoop_first_event cli containerID P rounds
      ((((⟨s.logsCalls + 1, s.stopCalls, s.startCalls,
          s.trace ++ [Event.logs containerID none]⟩ : Sys).emit
            (reader.lines.map (fun l => Event.contains l P))).emit
              (sessionEnd containerID reader.err)).emit [Event.sleep (2 * Second)])
    exact ⟨r, rest, by rw [h]; simp [Sys.emit]⟩

/-- Claim C5 on a stream of two lines without the pattern. -/
theorem C5_no_match_no_restart_witness :
    (scriptedDocker ["starting", "ok"] none none).logs Sys.init.logsCalls "abc" =
      Except.ok ⟨["starting", "ok"], none⟩ ∧
    (∀ l ∈ (["starting", "ok"] : List String), ¬ "OOM".toList <:+: l.toList) ∧
    ∃ s' : Sys,
      monitorContainerLogs (scriptedDocker ["starting", "ok"] none none) "abc" "OOM"
        Sys.init = Run.ret () s' ∧
      s'.trace = Sys.init.trace ++ Event.logs "abc" none ::
        (["starting", "ok"] : List String).map (fun l => Event.contains l "OOM") ++
          sessionEnd "abc" none ∧
      s'.stopCalls = Sys.init.stopCalls ∧ s'.startCalls = Sys.init.startCalls ∧
      (∀ e ∈ s'.trace.drop Sys.init.trace.length, e.isStop = false ∧ e.isStart = false) ∧
      supervisorLoop (scriptedDocker ["starting", "ok"] none none) "abc" "OOM" (1 + 1)
          Sys.init =
        supervisorLoop (scriptedDocker ["starting", "ok"] none none) "abc" "OOM" 1
          (s'.emit [Event.sleep (2 * Second)]) ∧
      ∃ (r : Option String) (rest : List Event),
        (supervisorLoop (scriptedDocker ["starting", "ok"] none none) "abc" "OOM" (1 + 2)
          Sys.init).sys.trace =
          s'.trace ++ Event.sleep (2 * Second) :: Event.logs "abc" r :: rest :=
  ⟨rfl, by decide,
    C5_no_match_no_restart (scriptedDocker ["starting", "ok"] none none) "abc" "OOM"
      Sys.init ⟨["starting", "ok"], none⟩ 1 rfl (by decide)⟩

/-- Claim C6. The settle delay of ten seconds is not negative. In the events of any
invocation of `restartContainer` that follows `n` earlier ones, a start call has
exactly the successful stop call and the ten-second sleep before it, and no stop
call after it. In the trace of `n` back-to-back invocations every start call comes
right after a successful stop call and the ten-second sleep. -/
theorem C6_start_follows_stop_and_settle (cli : Docker) (containerID : String) (n : Nat)
    (s : Sys) :
    (0 : Duration) ≤ 10 * Second ∧
    (∃ chunk : List Event,
      (restartContainer cli containerID (restartRepeatedly cli containerID n s)).trace =
        (restartRepeatedly cli containerID n s).trace ++ chunk ∧
      ∀ pre post x r, chunk = pre ++ Event.start x r :: post →
        pre = [Event.stop containerID none, Event.sleep (10 * Second)] ∧
        ∀ e ∈ post, e.isStop = false) ∧
    ∃ new : List Event,
      (restartRepeatedly cli containerID n s).trace = s.trace ++ new ∧
      ∀ pre post x r, new = pre ++ Event.start x r :: post →
        ∃ pre', pre = pre' ++ [Event.stop containerID none, Event.sleep (10 * Second)] := by
  refine ⟨by decide, ?_, ?_⟩
  · obtain ⟨chunk, h1, h2⟩ :=
      restartContainer_start_position cli containerID (restartRepeatedly cli containerID n s)
    exact ⟨chunk, h1, fun pre post x r h => ⟨(h2 pre post x r h).1, (h2 pre post x r h).2.2⟩⟩
  · induction n with
    | zero =>
      refine ⟨[], by simp [restartRepeatedly], ?_⟩
      intro pre post x r h
      simp at h
    | succ n ih =>
      obtain ⟨new, h1, h2⟩ := ih
      obtain ⟨chunk, h3, h4⟩ :=
        restartContainer_start_position cli containerID (restartRepeatedly cli containerID n s)
      refine ⟨new ++ chunk, ?_, ?_⟩
      · simp only [restartRepeatedly, h3, h1, List.append_assoc]
      · intro pre post x r h
        rcases List.append_eq_append_iff.1 h with ⟨a, rfl, ha⟩ | ⟨c, hc, hc2⟩
        · exact ⟨new, by rw [(h4 a post x r ha).1]⟩
        · cases c with
          | nil =>
            have := (h4 [] post x r (by simpa using hc2.symm)).1
            simp at this
          | cons e c =>
            simp only [List.cons_append, List.cons.injEq] at hc2
            obtain ⟨rfl, _⟩ := hc2
            exact h2 pre c x r hc

/-- Claim C7, as stated, fails. With two matching lines, a successful stop and a
failing start, the step after the failed actuation is the test of the next line and
a second actuation; the cooldown sleep does not follow the failure log. -/
theorem C7_counterexample :
    supervisorLoop (startFailsDocker ["OOM one", "OOM two"]) "abc" "OOM" 1 Sys.init =
      Run.ret () ⟨1, 2, 2,
        [Event.logs "abc" none,
         Event.contains "OOM one" "OOM", Event.print (Msg.criteriaFound "OOM" "abc"),
         Event.stop "abc" none, Event.sleep (10 * Second),
         Event.start "abc" (some "port is already allocated"),
         Event.log (Msg.startError "abc" "port is already allocated"),
         Event.contains "OOM two" "OOM", Event.print (Msg.criteriaFound "OOM" "abc"),
         Event.stop "abc" none, Event.sleep (10 * Second),
         Event.start "abc" (some "port is already allocated"),
         Event.log (Msg.startError "abc" "port is already allocated"),
         Event.closeLogs "abc", Event.sleep (2 * Second)]⟩ ∧
    ¬ ([Event.log (Msg.startError "abc" "port is already allocated"),
        Event.sleep (2 * Second)] <:+:
      (supervisorLoop (startFailsDocker ["OOM one", "OOM two"]) "abc" "OOM" 1
        Sys.init).sys.trace) := by
  decide

/-- Claim C7, amended. When the line `l` contains `P` and the actuation on it has
stop succeed and start fail, the failure is logged (`sFail`); the session is not
aborted: it scans the lines `post` that follow `l`, ends, and the supervisor loop
goes on with the two-second sleep and, if a round is left, a new `ContainerLogs`
call. From the state `sOk` that a successful start would have left, the loop adds
the very same events and ends the same way. -/
theorem C7_start_failure_keeps_scanning (cli : Docker) (containerID P : String) (s : Sys)
    (reader : LogStream) (pre : List String) (l : String) (post : List String)
    (err : String) (rounds : Nat)
    (hopen : cli.logs s.logsCalls containerID = Except.ok reader)
    (hlines : reader.lines = pre ++ l :: post)
    (hmatch : P.toList <:+: l.toList)
    (hstop : cli.stop (scanLines cli containerID P pre (s.opened containerID)).stopCalls
      containerID = none)
    (hstart : cli.start (scanLines cli containerID P pre (s.opened containerID)).startCalls
      containerID = some err) :
    ∃ (sFail sOk : Sys) (mid more : List Event),
      sFail = (scanLines cli containerID P pre (s.opened containerID)).actuated
        [Event.contains l P, Event.print (Msg.criteriaFound P containerID),
         Event.stop containerID none, Event.sleep (10 * Second),
         Event.start containerID (some err), Event.log (Msg.startError containerID err)] ∧
      sOk = (scanLines cli containerID P pre (s.opened containerID)).actuated
        [Event.contains l P, Event.print (Msg.criteriaFound P containerID),
         Event.stop containerID none, Event.sleep (10 * Second),
         Event.start containerID none, Event.print (Msg.restarted containerID)] ∧
      scanLines cli containerID P (pre ++ [l]) (s.opened containerID) = sFail ∧
      monitorContainerLogs cli containerID P s =
        Run.ret () ((scanLines cli containerID P post sFail).emit
          (sessionEnd containerID reader.err)) ∧
      supervisorLoop cli containerID P (rounds + 1) s =
        restOfLoop cli containerID P post reader.err rounds sFail ∧
      testedLines mid = post ∧
      (restOfLoop cli containerID P post reader.err rounds sFail).sys.trace =
        sFail.trace ++ (mid ++ sessionEnd containerID reader.err ++
          Event.sleep (2 * Second) :: more) ∧
      (restOfLoop cli containerID P post reader.err rounds sOk).sys.trace =
        sOk.trace ++ (mid ++ sessionEnd containerID reader.err ++
          Event.sleep (2 * Second) :: more) ∧
      (restOfLoop cli containerID P post reader.err rounds sFail).exited =
        (restOfLoop cli containerID P post reader.err rounds sOk).exited ∧
      (0 < rounds → ∃ r more', more = Event.logs containerID r :: more') := by
  have hc : Contains l P = true := (Contains_iff _ _).2 hmatch
  have hact : scanLines cli containerID P (pre ++ [l]) (s.opened containerID) =
      (scanLines cli containerID P pre (s.opened containerID)).actuated
        [Event.contains l P, Event.print (Msg.criteriaFound P containerID),
         Event.stop containerID none, Event.sleep (10 * Second),
         Event.start containerID (some err),
         Event.log (Msg.startError containerID err)] := by
    rw [scanLines_append, scanLines, if_pos hc, scanLines]
    simp [restartContainer, Sys.emit, Sys.actuated, hstop, hstart]
  have hmon : monitorContainerLogs cli containerID P s =
      Run.ret () ((scanLines cli containerID P post
        ((scanLines cli containerID P pre (s.opened containerID)).actuated
          [Event.contains l P, Event.print (Msg.criteriaFound P containerID),
           Event.stop containerID none, Event.sleep (10 * Second),
           Event.start containerID (some err),
           Event.log (Msg.startError containerID err)])).emit
        (sessionEnd containerID reader.err)) := by
    rw [monitorContainerLogs_ok cli containerID P s reader hopen, hlines, ← hact,
      ← scanLines_append]
    simp [Sys.opened]
  obtain ⟨mid, more, h1, h2, h3⟩ := restOfLoop_trace cli containerID P post reader.err rounds
    ⟨(scanLines cli containerID P pre (s.opened containerID)).logsCalls,
     (scanLines cli containerID P pre (s.opened containerID)).stopCalls + 1,
     (scanLines cli containerID P pre (s.opened containerID)).startCalls + 1, []⟩ rfl
  have hframe : ∀ es : List Event,
      (scanLines cli containerID P pre (s.opened containerID)).actuated es =
        Sys.prepend ((scanLines cli containerID P pre (s.opened containerID)).trace ++ es)
          ⟨(scanLines cli containerID P pre (s.opened containerID)).logsCalls,
           (scanLines cli containerID P pre (s.opened containerID)).stopCalls + 1,
           (scanLines cli containerID P pre (s.opened containerID)).startCalls + 1, []⟩ := by
    intro es
    simp [Sys.actuated, Sys.prepend]
  refine ⟨_, _, mid, more, rfl, rfl, hact, hmon, ?_, h1, ?_, ?_, ?_, h3⟩
  · rw [supervisorLoop, hmon]
    rfl
  · rw [hframe, restOfLoop_prepend, Run.sys_prepend, h2]
    simp [Sys.prepend]
  · rw [hframe, restOfLoop_prepend, Run.sys_prepend, h2]
    simp [Sys.prepend]
  · rw [hframe, hframe, restOfLoop_prepend, restOfLoop_prepend, Run.exited_prepend,
      Run.exited_prepend]

/-- The amended claim C7 on a stream whose second line matches. -/
theorem C7_start_failure_keeps_scanning_witness :
    (startFailsDocker ["ok", "OOM one", "later"]).logs Sys.init.logsCalls "abc" =
      Except.ok ⟨["ok", "OOM one", "later"], none⟩ ∧
    (["ok", "OOM one", "later"] : List String) = ["ok"] ++ "OOM one" :: ["later"] ∧
    "OOM".toList <:+: "OOM one".toList ∧
    (startFailsDocker ["ok", "OOM one", "later"]).stop
      (scanLines (startFailsDocker ["ok", "OOM one", "later"]) "abc" "OOM" ["ok"]
        (Sys.init.opened "abc")).stopCalls "abc" = none ∧
    (startFailsDocker ["ok", "OOM one", "later"]).start
      (scanLines (startFailsDocker ["ok", "OOM one", "later"]) "abc" "OOM" ["ok"]
        (Sys.init.opened "abc")).startCalls "abc" = some "port is already allocated" ∧
    ∃ (sFail sOk : Sys) (mid more : List Event),
      sFail = (scanLines (startFailsDocker ["ok", "OOM one", "later"]) "abc" "OOM" ["ok"]
          (Sys.init.opened "abc")).actuated
        [Event.contains "OOM one" "OOM", Event.print (Msg.criteriaFound "OOM" "abc"),
         Event.stop "abc" none, Event.sleep (10 * Second),
         Event.start "abc" (some "port is already allocated"),
         Event.log (Msg.startError "abc" "port is already allocated")] ∧
      sOk = (scanLines (startFailsDocker ["ok", "OOM one", "later"]) "abc" "OOM" ["ok"]
          (Sys.init.opened "abc")).actuated
        [Event.contains "OOM one" "OOM", Event.print (Msg.criteriaFound "OOM" "abc"),
         Event.stop "abc" none, Event.sleep (10 * Second),
         Event.start "abc" none, Event.print (Msg.restarted "abc")] ∧
      scanLines (startFailsDocker ["ok", "OOM one", "later"]) "abc" "OOM"
        (["ok"] ++ ["OOM one"]) (Sys.init.opened "abc") = sFail ∧
      monitorContainerLogs (startFailsDocker ["ok", "OOM one", "later"]) "abc" "OOM"
          Sys.init =
        Run.ret () ((scanLines (startFailsDocker ["ok", "OOM one", "later"]) "abc" "OOM"
          ["later"] sFail).emit (sessionEnd "abc" none)) ∧
      supervisorLoop (startFailsDocker ["ok", "OOM one", "later"]) "abc" "OOM" (1 + 1)
          Sys.init =
        restOfLoop (startFailsDocker ["ok", "OOM one", "later"]) "abc" "OOM" ["later"]
          none 1 sFail ∧
      testedLines mid = ["later"] ∧
      (restOfLoop (startFailsDocker ["ok", "OOM one", "later"]) "abc" "OOM" ["later"]
          none 1 sFail).sys.trace =
        sFail.trace ++ (mid ++ sessionEnd "abc" none ++ Event.sleep (2 * Second) :: more) ∧
      (restOfLoop (startFailsDocker ["ok", "OOM one", "later"]) "abc" "OOM" ["later"]
          none 1 sOk).sys.trace =
        sOk.trace ++ (mid ++ sessionEnd "abc" none ++ Event.sleep (2 * Second) :: more) ∧
      (restOfLoop (startFailsDocker ["ok", "OOM one", "later"]) "abc" "OOM" ["later"]
          none 1 sFail).exited =
        (restOfLoop (startFailsDocker ["ok", "OOM one", "later"]) "abc" "OOM" ["later"]
          none 1 sOk).exited ∧
      (0 < 1 → ∃ r more', more = Event.logs "abc" r :: more') :=
  ⟨rfl, rfl, by decide, rfl, rfl,
    C7_start_failure_keeps_scanning (startFailsDocker ["ok", "OOM one", "later"]) "abc" "OOM"
      Sys.init ⟨["ok", "OOM one", "later"], none⟩ ["ok"] "OOM one" ["later"]
      "port is already allocated" 1 rfl rfl (by decide) rfl rfl⟩

/-- Claim C8. If the inspect call for the container name fails,
`resolveContainerID` returns an error, and `main`, which makes that call once the
client is built and `CONTAINER_NAME` is set, exits with the resolution error: the
trace ends there, and its gateway calls are the single inspect call. -/
theorem C8_unresolvable_container_is_fatal (env : Startup) (cli : Docker) (rounds : Nat)
    (containerName err : String)
    (hclient : env.clientErr = none)
    (hname : env.getenv "CONTAINER_NAME" = containerName)
    (hset : containerName ≠ "")
    (hinspect : cli.inspect containerName = Except.error err) :
    (∀ s : Sys,
      (resolveContainerID cli containerName s).1 =
        Except.error ("container " ++ containerName ++ " not found or not running")) ∧
    ∃ s : Sys,
      main env cli rounds = Run.exit s ∧
      s.trace = dotenvNotice env.dotenvErr ++
        [Event.inspect containerName (some err),
         Event.log (Msg.resolveError
           ("container " ++ containerName ++ " not found or not running")),
         Event.osExit 1] ∧
      gatewayCalls s.trace = [Event.inspect containerName (some err)] := by
  refine ⟨fun s => by simp [resolveContainerID, hinspect], ?_⟩
  subst hname
  rcases mainStartup_cases env cli with
    ⟨e, hc, h⟩ | ⟨hc, hn, h⟩ | ⟨e, hc, hn, hi, h⟩ | ⟨cid, hc, hn, hi, hm, h⟩ |
    ⟨cid, hc, hn, hi, hm, h⟩
  · rw [hclient] at hc; cases hc
  · exact absurd hn hset
  · rw [hinspect] at hi
    cases hi
    exact ⟨_, main_of_startup_exit env cli rounds _ h, rfl, by
      rw [gatewayCalls_dotenvNotice]; rfl⟩
  · rw [hinspect] at hi; cases hi
  · rw [hinspect] at hi; cases hi

/-- Claim C8 for the name `web-1` on a daemon that knows no container. -/
theorem C8_unresolvable_container_is_fatal_witness :
    (envOf "web-1" "OOM").clientErr = none ∧
    (envOf "web-1" "OOM").getenv "CONTAINER_NAME" = "web-1" ∧
    ("web-1" : String) ≠ "" ∧
    emptyDocker.inspect "web-1" = Except.error "No such container" ∧
    (∀ s : Sys,
      (resolveContainerID emptyDocker "web-1" s).1 =
        Except.error ("container " ++ "web-1" ++ " not found or not running")) ∧
    ∃ s : Sys,
      main (envOf "web-1" "OOM") emptyDocker 3 = Run.exit s ∧
      s.trace = dotenvNotice (envOf "web-1" "OOM").dotenvErr ++
        [Event.inspect "web-1" (some "No such container"),
         Event.log (Msg.resolveError
           ("container " ++ "web-1" ++ " not found or not running")),
         Event.osExit 1] ∧
      gatewayCalls s.trace = [Event.inspect "web-1" (some "No such container")] :=
  ⟨rfl, by decide, by decide, rfl,
    C8_unresolvable_container_is_fatal (envOf "web-1" "OOM") emptyDocker 3 "web-1"
      "No such container" rfl (by decide) (by decide) rfl⟩

/-- Claim C9. If the startup sequence of `main` reaches the launch of the
supervisor loop, the criteria it hands to the loop is the value of `ERROR_MSG` and
is not empty; if `ERROR_MSG` is empty, `main` ends with a log line and `os.Exit(1)`
without any `ContainerLogs` call. -/
theorem C9_trigger_pattern_never_empty (env : Startup) (cli : Docker) (rounds : Nat) :
    (∀ (containerID msgErrCriteria : String) (s : Sys),
      mainStartup env cli = Run.ret (containerID, msgErrCriteria) s →
        msgErrCriteria ≠ "" ∧ msgErrCriteria = env.getenv "ERROR_MSG" ∧
        main env cli rounds = supervisorLoop cli containerID msgErrCriteria rounds s) ∧
    (env.getenv "ERROR_MSG" = "" →
      ∃ (s : Sys) (pre : List Event) (m : Msg),
        main env cli rounds = Run.exit s ∧
        s.trace = pre ++ [Event.log m, Event.osExit 1] ∧
        ∀ e ∈ s.trace, e.isLogs = false) := by
  refine ⟨?_, ?_⟩
  · intro containerID msgErrCriteria s hret
    have hmain := main_of_startup_ret env cli rounds containerID msgErrCriteria s hret
    rcases mainStartup_cases env cli with
      ⟨e, hc, h⟩ | ⟨hc, hn, h⟩ | ⟨e, hc, hn, hi, h⟩ | ⟨cid, hc, hn, hi, hm, h⟩ |
      ⟨cid, hc, hn, hi, hm, h⟩
    · rw [h] at hret; cases hret
    · rw [h] at hret; cases hret
    · rw [h] at hret; cases hret
    · rw [h] at hret; cases hret
    · rw [h] at hret
      cases hret
      exact ⟨hm, rfl, hmain⟩
  · exact main_fatal_of_empty_criteria env cli rounds

/-- Claim C10. In a session whose stream opens, whatever the daemon answers to the
stop and start calls, the number of stop calls, one per `restartContainer`
invocation, is the number of lines that contain `P`; the lines charged with a
restart are the lines containing `P`, in arrival order; every line is tested. -/
theorem C10_one_restart_per_matching_line (cli : Docker) (containerID P : String) (s : Sys)
    (reader : LogStream) (hopen : cli.logs s.logsCalls containerID = Except.ok reader) :
    ∃ (s' : Sys) (new : List Event),
      monitorContainerLogs cli containerID P s = Run.ret () s' ∧
      s'.trace = s.trace ++ new ∧
      new.countP Event.isStop =
        reader.lines.countP (fun l => decide (P.toList <:+: l.toList)) ∧
      s'.stopCalls =
        s.stopCalls + reader.lines.countP (fun l => decide (P.toList <:+: l.toList)) ∧
      actuatedLines none new =
        reader.lines.filter (fun l => decide (P.toList <:+: l.toList)) ∧
      testedLines new = reader.lines := by
  obtain ⟨s', new, h1, h2, -, h4, h5, h6, h7⟩ :=
    monitorContainerLogs_spec cli containerID P s reader hopen
  rw [decide_infix_eq_Contains]
  exact ⟨s', new, h1, h2, h5, h4, h7, h6⟩

/-- Claim C10 on a stream with two matching lines and a daemon that rejects stop. -/
theorem C10_one_restart_per_matching_line_witness :
    (scriptedDocker ["OOM first", "fine", "oom", "second OOM"] (some "busy") none).logs
        Sys.init.logsCalls "abc" =
      Except.ok ⟨["OOM first", "fine", "oom", "second OOM"], none⟩ ∧
    ∃ (s' : Sys) (new : List Event),
      monitorContainerLogs
        (scriptedDocker ["OOM first", "fine", "oom", "second OOM"] (some "busy") none)
        "abc" "OOM" Sys.init = Run.ret () s' ∧
      s'.trace = Sys.init.trace ++ new ∧
      new.countP Event.isStop =
        (["OOM first", "fine", "oom", "second OOM"] : List String).countP
          (fun l => decide ("OOM".toList <:+: l.toList)) ∧
      s'.stopCalls = Sys.init.stopCalls +
        (["OOM first", "fine", "oom", "second OOM"] : List String).countP
          (fun l => decide ("OOM".toList <:+: l.toList)) ∧
      actuatedLines none new =
        (["OOM first", "fine", "oom", "second OOM"] : List String).filter
          (fun l => decide ("OOM".toList <:+: l.toList)) ∧
      testedLines new = ["OOM first", "fine", "oom", "second OOM"] :=
  ⟨rfl, C10_one_restart_per_matching_line
    (scriptedDocker ["OOM first", "fine", "oom", "second OOM"] (some "busy") none)
    "abc" "OOM" Sys.init ⟨["OOM first", "fine", "oom", "second OOM"], none⟩ rfl⟩

end ZigbeeWatcher
